import Mathlib

/-
Verification of the retrieval-augmented QA notebook (Custom_Chatbot.ipynb).

The notebook's core logic is embedded shallowly:
  * a pandas dataframe of passages is a `List Row` (index label, text,
    embedding, and the optional `distance` column);
  * the external providers (OpenAI embedding / completion calls, the
    tiktoken tokenizer, dateutil date parsing, the CSV serializer) are
    inputs: each provider call outcome is a parameter of the embedded
    function, so both success and failure paths of the notebook are
    ordinary branches here;
  * floating-point vectors are modelled over the reals.
-/

set_option maxRecDepth 4000

/-- A row of the passages dataframe: the pandas index label `idx`, the
passage `text`, the `embedding` vector, and the `distance` column, which
is absent (`none`) until the ranker assigns it on a copy of the frame. -/
structure Row where
  idx : ℕ
  text : String
  embedding : List ℝ
  distance : Option ℝ

/-- Head of the notebook's `prompt_template` literal, up to the first
format placeholder (the context slot). -/
def promptHead : String :=
  "\n    Answer the question based on the context below. If the question can\x27t be answered based on the context, say \"I don\x27t know.\"\n\n    Context: "

/-- Middle of the `prompt_template` literal, between the context slot and
the question slot. -/
def promptMid : String := "\n\n    ---\n\n    Question: "

/-- Tail of the `prompt_template` literal, after the question slot. -/
def promptTail : String := "\n\n    Answer:\n    "

/-- The notebook's `prompt_template` with its two `\x7b\x7d` placeholders;
`create_prompt` counts its tokens before packing any context. -/
def prompt_template : String :=
  promptHead ++ "\x7b\x7d" ++ promptMid ++ "\x7b\x7d" ++ promptTail

/-- The separator `create_prompt` joins selected passage texts with. -/
def ctxSep : String := "\n\n###\n\n"

/-- The passage-selection loop of `create_prompt`: walk the texts in order
with a running token total `cur`; append a text whenever adding its token
count keeps the total within `maxTok`, and stop at the first text that
does not fit (the Python loop executes `break`, so no later text is
considered). -/
def packTexts (tok : String → ℕ) (maxTok : ℕ) : ℕ → List String → List String
  | _, [] => []
  | cur, t :: rest =>
    if cur + tok t ≤ maxTok then t :: packTexts tok maxTok (cur + tok t) rest
    else []

/-- Shallow embedding of `create_prompt`.  The tokenizer (tiktoken
`cl100k_base` in the notebook) is an external collaborator and is passed
in as the token-counting function `tok`.  The result is
`prompt_template.format(context, question)` where `context` joins the
selected texts with `ctxSep`. -/
def create_prompt (tok : String → ℕ) (question : String) (df : List Row)
    (max_token_count : ℕ) : String :=
  let current_token_count := tok prompt_template + tok question
  let context := packTexts tok max_token_count current_token_count (df.map Row.text)
  promptHead ++ String.intercalate ctxSep context ++ promptMid ++ question ++ promptTail

/-- Concrete tokenizer instance used for closed evaluations: one token per
character. -/
def charTok (s : String) : ℕ := s.length

/-- Dot product of two vectors, as computed by the numeric library on
equal-length vectors (componentwise product, summed). -/
def dotList : List ℝ → List ℝ → ℝ
  | x :: a, y :: b => x * y + dotList a b
  | _, _ => 0

/-- Modelled from the spec: the cosine metric of
`distances_from_embeddings` (from the `openai` library, whose source is
not part of this repository).  Per the spec, cosine distance is
`1 - (a\.b)/(\|a\|*\|b\|)`, with the zero-vector edge case defined as the
maximal distance `2.0` instead of a division fault. -/
noncomputable def cosineDistance (a b : List ℝ) : ℝ :=
  if Real.sqrt (dotList a a) = 0 ∨ Real.sqrt (dotList b b) = 0 then 2
  else 1 - dotList a b / (Real.sqrt (dotList a a) * Real.sqrt (dotList b b))

/-- Outcome of the `openai.Embedding.create` call for the question: the
call can raise, return a response without a usable `data` field, or
return an embedding vector. -/
inductive EmbedResponse where
  | raise : EmbedResponse
  | malformed : EmbedResponse
  | ok : List ℝ → EmbedResponse

/-- The value of a row's `distance` cell when the column is present
(`0` as a dummy when absent; the ranked path always sets the column). -/
noncomputable def distKey (r : Row) : ℝ := r.distance.getD 0

/-- Writing the `distance` column on a frame:
`df_copy["distance"] = distances_from_embeddings(question_embedding, ...)`
with the cosine metric. -/
noncomputable def assignDistances (qe : List ℝ) (rows : List Row) : List Row :=
  rows.map fun r => { r with distance := some (cosineDistance qe r.embedding) }

/-- pandas `DataFrame.nsmallest(n, "distance")` with the default
`keep="first"`: the `n` rows with smallest `distance`, in ascending
order, ties kept in original row order (stable selection). -/
noncomputable def nsmallest (n : ℕ) (rows : List Row) : List Row :=
  (List.insertionSort (fun a b => distKey a ≤ distKey b) rows).take n

/-- Shallow embedding of `get_relevant_rows`, tracking the caller's frame
object across the call.  The first component is what the call returns
(`Except.error` when an uncaught exception propagates); the second
component is the state of the caller's `df` object after the call.  Each
pandas column assignment `obj["distance"] = v` is modelled as an update of
the named object, so the body shows that the assignment targets the copy
`df_copy` produced by `df.copy()`, never `df` itself. -/
noncomputable def get_relevant_rows_frame (resp : EmbedResponse) (df : List Row)
    (top_n : ℕ) : Except Unit (List Row) × List Row :=
  match resp with
  | .raise =>
    -- the Embedding.create call is not wrapped in try/except: the
    -- exception propagates out of get_relevant_rows
    (Except.error (), df)
  | .malformed =>
    -- the "'data' key not found or empty" branch: warn and
    -- `return df.head(top_n)` as fallback
    (Except.ok (df.take top_n), df)
  | .ok qe =>
    let df_copy := df
    let df_copy := assignDistances qe df_copy
    (Except.ok (nsmallest top_n df_copy), df)

/-- The value `get_relevant_rows` returns (first component of the
frame-tracking embedding). -/
noncomputable def get_relevant_rows (resp : EmbedResponse) (df : List Row)
    (top_n : ℕ) : Except Unit (List Row) :=
  (get_relevant_rows_frame resp df top_n).1

/-- A row of the CSV written by `save_embeddings`: the pandas index label
and the `text` and `embeddings` cells, the latter a serialized vector. -/
structure SavedRow where
  savedIdx : ℕ
  text : String
  embeddings : String

/-- Shallow embedding of `save_embeddings` (`df.to_csv(output_file)`).
The serialization of a float list to its textual cell (Python `repr` via
pandas) is an external collaborator, passed in as `serialize`. -/
def save_embeddings (serialize : List ℝ → String) (df : List Row) : List SavedRow :=
  df.map fun r => ⟨r.idx, r.text, serialize r.embedding⟩

/-- Rows produced by `load_embeddings` from position `i` on: `pd.read_csv`
gives the reloaded frame a fresh positional index, and
`df["embeddings"].apply(eval).apply(np.array)` deserializes each cell. -/
def loadRows (deserialize : String → List ℝ) : ℕ → List SavedRow → List Row
  | _, [] => []
  | i, s :: rest => ⟨i, s.text, deserialize s.embeddings, none⟩ :: loadRows deserialize (i + 1) rest

/-- Shallow embedding of `load_embeddings`.  The cell parser (Python
`eval` composed with `np.array`) is the external collaborator
`deserialize`; per the spec it round-trips `serialize` exactly. -/
def load_embeddings (deserialize : String → List ℝ) (rows : List SavedRow) : List Row :=
  loadRows deserialize 0 rows

/-- Outcome of the `openai.Completion.create` call: the call can raise,
return a response whose `choices` field is missing or empty, or return a
response with an answer text. -/
inductive CompletionResponse where
  | raise : CompletionResponse
  | noChoices : CompletionResponse
  | ok : String → CompletionResponse

/-- Shallow embedding of `get_openai_answer`: the whole call is wrapped in
try/except, so a raise yields the sentinel "An error occurred."; a
response without a usable `choices` field yields "No answer found in
response."; otherwise the answer text is stripped and returned.  The
prompt is sent to the provider; the provider's behaviour is the oracle
`resp`. -/
def get_openai_answer (prompt : String) (resp : CompletionResponse) : String :=
  match resp with
  | .raise => "An error occurred."
  | .noChoices => "No answer found in response."
  | .ok t =>
    let _ := prompt
    t.trim

/-- Shallow embedding of `answer_question_with_context`: rank (which can
propagate an exception), build the prompt, ask the completion provider. -/
noncomputable def answer_question_with_context (tok : String → ℕ)
    (embedResp : EmbedResponse) (complResp : CompletionResponse)
    (question : String) (df : List Row) (max_prompt_tokens : ℕ)
    (top_n : ℕ) : Except Unit String :=
  match get_relevant_rows embedResp df top_n with
  | .error e => .error e
  | .ok relevant_rows =>
    .ok (get_openai_answer (create_prompt tok question relevant_rows max_prompt_tokens) complResp)

/-- Python `str.lower()` on the characters of a string. -/
def lowerStr (s : String) : String := String.mk (s.data.map Char.toLower)

/-- One turn of the interactive loop: the typed input together with the
outcomes of the provider calls made while answering it. -/
structure Turn where
  input : String
  embedResp : EmbedResponse
  complResp : CompletionResponse

/-- Shallow embedding of the interactive `while True` loop: stop on the
input `exit` (case-insensitive), otherwise answer the question with
context; an uncaught exception terminates the loop (`Except.error`),
otherwise the printed answers accumulate.  The loop in the notebook uses
`max_prompt_tokens = 1500` and `top_n = 10`. -/
noncomputable def runLoop (tok : String → ℕ) (df : List Row) : List Turn → Except Unit (List String)
  | [] => .ok []
  | t :: rest =>
    if lowerStr t.input = "exit" then .ok []
    else
      match answer_question_with_context tok t.embedResp t.complResp t.input df 1500 10 with
      | .error e => .error e
      | .ok ans =>
        match runLoop tok df rest with
        | .error e => .error e
        | .ok answers => .ok (ans :: answers)

/-- The packing loop selects a prefix of the texts: the selected texts are
`l.take k` for a `k` such that every selected step kept the running total
within the budget, and the first unselected text (if any) would have
exceeded it. -/
theorem packTexts_eq_take (tok : String → ℕ) (maxTok : ℕ) (l : List String) :
    ∀ cur : ℕ, ∃ k, k ≤ l.length ∧
      packTexts tok maxTok cur l = l.take k ∧
      (∀ j < k, cur + ((l.take (j + 1)).map tok).sum ≤ maxTok) ∧
      (k < l.length → maxTok < cur + ((l.take (k + 1)).map tok).sum) := by
  induction l with
  | nil =>
    intro cur
    exact ⟨0, by simp, by simp [packTexts], by simp, by simp⟩
  | cons t rest ih =>
    intro cur
    by_cases h : cur + tok t ≤ maxTok
    · obtain ⟨k, hk, hpack, hfits, hover⟩ := ih (cur + tok t)
      refine ⟨k + 1, by simpa using hk, ?_, ?_, ?_⟩
      · simp [packTexts, h, hpack]
      · intro j hj
        match j with
        | 0 => simpa using h
        | j' + 1 =>
          have h2 := hfits j' (by omega)
          simp only [List.take_succ_cons, List.map_cons, List.sum_cons]
          omega
      · intro hlt
        have h2 := hover (by simpa using hlt)
        simp only [List.take_succ_cons, List.map_cons, List.sum_cons]
        omega
    · refine ⟨0, by simp, ?_, by simp, ?_⟩
      · simp only [packTexts]
        rw [if_neg h]
        simp
      · intro _
        simp only [zero_add, List.take_succ_cons, List.take_zero, List.map_cons,
          List.map_nil, List.sum_cons, List.sum_nil]
        omega

/-- C3: `create_prompt` selects passages by first-fit in rank order:
starting from the token cost of the template plus the question, the
selected context is a prefix `take k` of the ranked texts in which every
inclusion kept the running total within `max_token_count`, and the first
excluded text (when one exists) would have pushed the total over the
budget, so no later passage is considered. -/
theorem create_prompt_first_fit (tok : String → ℕ) (question : String)
    (df : List Row) (maxTok : ℕ) :
    ∃ k, k ≤ df.length ∧
      packTexts tok maxTok (tok prompt_template + tok question) (df.map Row.text)
        = (df.map Row.text).take k ∧
      create_prompt tok question df maxTok
        = promptHead ++ String.intercalate ctxSep ((df.map Row.text).take k)
            ++ promptMid ++ question ++ promptTail ∧
      (∀ j < k,
        tok prompt_template + tok question
          + (((df.map Row.text).take (j + 1)).map tok).sum ≤ maxTok) ∧
      (k < df.length →
        maxTok < tok prompt_template + tok question
          + (((df.map Row.text).take (k + 1)).map tok).sum) := by
  obtain ⟨k, hk, hpack, hfits, hover⟩ :=
    packTexts_eq_take tok maxTok (df.map Row.text) (tok prompt_template + tok question)
  refine ⟨k, by simpa using hk, hpack, ?_, hfits, fun hlt => hover (by simpa using hlt)⟩
  simp only [create_prompt, hpack]

/-- When the running total already exceeds the budget, the packing loop
selects nothing. -/
theorem packTexts_nil_of_over (tok : String → ℕ) (maxTok cur : ℕ)
    (l : List String) (h : maxTok < cur) : packTexts tok maxTok cur l = [] := by
  cases l with
  | nil => rfl
  | cons t rest =>
    simp only [packTexts]
    rw [if_neg (by omega)]

/-- C8: `create_prompt` is total by construction, and when the budget is
smaller than the token count of the template plus the question it still
returns the template with an empty context block and the question
substituted in. -/
theorem create_prompt_question_only (tok : String → ℕ) (question : String)
    (df : List Row) (maxTok : ℕ)
    (h : maxTok < tok prompt_template + tok question) :
    create_prompt tok question df maxTok
      = promptHead ++ promptMid ++ question ++ promptTail := by
  simp [create_prompt, packTexts_nil_of_over tok maxTok _ _ h, String.intercalate]

/-- Witness for `create_prompt_question_only` at a concrete input. -/
theorem create_prompt_question_only_witness :
    create_prompt charTok "hi" [] 0 = promptHead ++ promptMid ++ "hi" ++ promptTail :=
  create_prompt_question_only charTok "hi" [] 0 (by decide)

/-- C4 (amended): the returned prompt always contains the literal question
text, and whenever the template plus the question fit the budget, the
accounted token total — template plus question plus the token counts of
the selected passages — stays within `max_token_count`.  (The token count
of the full returned prompt can still exceed the budget, because the
`ctxSep` join separators are never counted.) -/
theorem create_prompt_contains_question_and_budget (tok : String → ℕ)
    (question : String) (df : List Row) (maxTok : ℕ) :
    (∃ s t, create_prompt tok question df maxTok = s ++ question ++ t) ∧
      (tok prompt_template + tok question ≤ maxTok →
        tok prompt_template + tok question
          + ((packTexts tok maxTok (tok prompt_template + tok question)
              (df.map Row.text)).map tok).sum ≤ maxTok) := by
  constructor
  · exact ⟨promptHead ++ String.intercalate ctxSep
        (packTexts tok maxTok (tok prompt_template + tok question) (df.map Row.text))
        ++ promptMid, promptTail, by simp only [create_prompt]⟩
  · intro hfit
    obtain ⟨k, hk, hpack, hfits, hover⟩ :=
      packTexts_eq_take tok maxTok (df.map Row.text) (tok prompt_template + tok question)
    rw [hpack]
    rcases Nat.eq_zero_or_pos k with h0 | hpos
    · subst h0
      simpa using hfit
    · have h1 := hfits (k - 1) (by omega)
      have h2 : k - 1 + 1 = k := Nat.succ_pred_eq_of_pos hpos
      rw [h2] at h1
      omega

/-- Witness for `create_prompt_contains_question_and_budget` at a concrete
input (with the inner fit condition discharged there). -/
theorem create_prompt_contains_question_and_budget_witness :
    ((∃ s t, create_prompt charTok "Q" [] 1000 = s ++ "Q" ++ t) ∧
      charTok prompt_template + charTok "Q"
        + ((packTexts charTok 1000 (charTok prompt_template + charTok "Q")
            (([] : List Row).map Row.text)).map charTok).sum ≤ 1000) :=
  ⟨(create_prompt_contains_question_and_budget charTok "Q" [] 1000).1,
    (create_prompt_contains_question_and_budget charTok "Q" [] 1000).2 (by decide)⟩

/-- Counterexample to C4 as stated: with a tokenizer that counts one token
per character, the template plus the question fit the budget, but the
returned prompt measured by that same tokenizer exceeds the budget — the
accounting never counts the `"\n\n###\n\n"` separators that the join
inserts between selected passages. -/
theorem create_prompt_budget_cex :
    charTok prompt_template + charTok "Q" ≤ 199 ∧
      199 < charTok (create_prompt charTok "Q"
        ([⟨0, "aaaa", [], none⟩, ⟨1, "bbbb", [], none⟩] : List Row) 199) := by
  decide

/-- Stability of ordered insertion: inserting an element whose position
index is below every index in a key-sorted list keeps the list pairwise
ordered by "strictly smaller key, or equal key and smaller index". -/
theorem pairwise_keyIdx_orderedInsert {α : Type} (key : α → ℝ) (ix : α → ℕ)
    (a : α) (s : List α) :
    s.Sorted (fun x y => key x ≤ key y) →
    s.Pairwise (fun x y => key x < key y ∨ (key x = key y ∧ ix x < ix y)) →
    (∀ b ∈ s, ix a < ix b) →
    (s.orderedInsert (fun x y => key x ≤ key y) a).Pairwise
      (fun x y => key x < key y ∨ (key x = key y ∧ ix x < ix y)) := by
  induction s with
  | nil => intro _ _ _; simp
  | cons b s ih =>
    intro hsort hp ha
    rw [List.orderedInsert]
    split_ifs with hab
    · refine List.Pairwise.cons ?_ hp
      intro c hc
      have hac : key a ≤ key c := by
        rcases List.mem_cons.mp hc with rfl | hcs
        · exact hab
        · exact le_trans hab (List.rel_of_sorted_cons hsort c hcs)
      rcases lt_or_eq_of_le hac with hlt | heq
      · exact Or.inl hlt
      · exact Or.inr ⟨heq, ha c hc⟩
    · have hrec := ih hsort.of_cons (List.pairwise_cons.mp hp).2
        (fun b' hb' => ha b' (List.mem_cons_of_mem b hb'))
      refine List.Pairwise.cons ?_ hrec
      intro c hc
      rcases (List.mem_orderedInsert _).mp hc with rfl | hcs
      · exact Or.inl (not_le.mp hab)
      · exact (List.pairwise_cons.mp hp).1 c hcs

/-- Insertion sort with a non-strict key comparison is stable: when the
input carries strictly increasing position indices, the sorted output is
pairwise ordered by "strictly smaller key, or equal key and smaller
index". -/
theorem pairwise_keyIdx_insertionSort {α : Type} (key : α → ℝ) (ix : α → ℕ)
    (l : List α) (h : l.Pairwise fun x y => ix x < ix y) :
    (l.insertionSort (fun x y => key x ≤ key y)).Pairwise
      (fun x y => key x < key y ∨ (key x = key y ∧ ix x < ix y)) := by
  induction l with
  | nil => simp
  | cons a l ih =>
    rw [List.insertionSort]
    haveI : IsTotal α fun x y => key x ≤ key y := ⟨fun x y => le_total _ _⟩
    haveI : IsTrans α fun x y => key x ≤ key y := ⟨fun x y z h1 h2 => le_trans h1 h2⟩
    refine pairwise_keyIdx_orderedInsert key ix a _
      (List.sorted_insertionSort _ _) (ih (List.pairwise_cons.mp h).2) ?_
    intro b hb
    exact (List.pairwise_cons.mp h).1 b
      ((List.perm_insertionSort _ l).mem_iff.mp hb)

/-- Every row of the ranked output comes from the input frame, with the
`distance` column set to its cosine distance from the question
embedding. -/
theorem mem_nsmallest_assign (qe : List ℝ) (df : List Row) (top_n : ℕ) :
    ∀ r ∈ nsmallest top_n (assignDistances qe df), ∃ r0 ∈ df,
      r = { r0 with distance := some (cosineDistance qe r0.embedding) } := by
  intro r hr
  have h1 : r ∈ List.insertionSort (fun a b => distKey a ≤ distKey b)
      (assignDistances qe df) := List.take_subset _ _ hr
  have h2 : r ∈ assignDistances qe df :=
    (List.perm_insertionSort _ _).mem_iff.mp h1
  obtain ⟨r0, hr0, hr0eq⟩ := List.mem_map.mp h2
  exact ⟨r0, hr0, hr0eq.symm⟩

/-- C1: on the success path (the embedding call returns a usable vector),
`get_relevant_rows` returns exactly `min top_n (number of passages)` rows,
ordered by non-decreasing cosine distance to the question embedding, with
ties between equal distances broken by original corpus order; every
returned row is an input row with its `distance` column set to its cosine
distance. -/
theorem get_relevant_rows_ranked (qe : List ℝ) (df : List Row) (top_n : ℕ)
    (hdim : ∀ r ∈ df, r.embedding.length = qe.length)
    (hidx : df.Pairwise fun a b => a.idx < b.idx) :
    ∃ out, get_relevant_rows (EmbedResponse.ok qe) df top_n = Except.ok out ∧
      out.length = min top_n df.length ∧
      out.Pairwise (fun a b =>
        cosineDistance qe a.embedding < cosineDistance qe b.embedding ∨
          (cosineDistance qe a.embedding = cosineDistance qe b.embedding ∧
            a.idx < b.idx)) ∧
      ∀ r ∈ out, ∃ r0 ∈ df, r.idx = r0.idx ∧ r.text = r0.text ∧
        r.embedding = r0.embedding ∧
        r.distance = some (cosineDistance qe r0.embedding) := by
  refine ⟨nsmallest top_n (assignDistances qe df), rfl, ?_, ?_, ?_⟩
  · have hlen : (assignDistances qe df).length = df.length := List.length_map _ _
    simp [nsmallest, List.length_take, List.length_insertionSort, hlen]
  · have hidx' : (assignDistances qe df).Pairwise fun a b => a.idx < b.idx := by
      unfold assignDistances
      exact (List.pairwise_map).mpr hidx
    have hsorted := pairwise_keyIdx_insertionSort distKey Row.idx
      (assignDistances qe df) hidx'
    have htake : (nsmallest top_n (assignDistances qe df)).Pairwise
        (fun a b => distKey a < distKey b ∨ (distKey a = distKey b ∧ a.idx < b.idx)) :=
      hsorted.sublist (List.take_sublist _ _)
    refine htake.imp_of_mem ?_
    intro a b hma hmb hab
    obtain ⟨a0, _, ha0⟩ := mem_nsmallest_assign qe df top_n a hma
    obtain ⟨b0, _, hb0⟩ := mem_nsmallest_assign qe df top_n b hmb
    have hda : distKey a = cosineDistance qe a.embedding := by
      subst ha0; rfl
    have hdb : distKey b = cosineDistance qe b.embedding := by
      subst hb0; rfl
    rwa [hda, hdb] at hab
  · intro r hr
    obtain ⟨r0, hr0, hr0eq⟩ := mem_nsmallest_assign qe df top_n r hr
    exact ⟨r0, hr0, by subst hr0eq; exact ⟨rfl, rfl, rfl, rfl⟩⟩

/-- Witness for `get_relevant_rows_ranked` at a concrete input. -/
theorem get_relevant_rows_ranked_witness :
    ∃ out, get_relevant_rows (EmbedResponse.ok [1])
        ([⟨0, "a", [1], none⟩, ⟨1, "b", [0], none⟩] : List Row) 1 = Except.ok out ∧
      out.length = min 1 ([⟨0, "a", [1], none⟩, ⟨1, "b", [0], none⟩] : List Row).length ∧
      out.Pairwise (fun a b =>
        cosineDistance [1] a.embedding < cosineDistance [1] b.embedding ∨
          (cosineDistance [1] a.embedding = cosineDistance [1] b.embedding ∧
            a.idx < b.idx)) ∧
      ∀ r ∈ out, ∃ r0 ∈ ([⟨0, "a", [1], none⟩, ⟨1, "b", [0], none⟩] : List Row),
        r.idx = r0.idx ∧ r.text = r0.text ∧ r.embedding = r0.embedding ∧
        r.distance = some (cosineDistance [1] r0.embedding) :=
  get_relevant_rows_ranked [1] [⟨0, "a", [1], none⟩, ⟨1, "b", [0], none⟩] 1
    (by intro r hr; simp only [List.mem_cons, List.mem_singleton] at hr
        rcases hr with rfl | rfl | h
        · rfl
        · rfl
        · cases h)
    (by simp)

/-- C2 (amended): when the embedding response is malformed (no usable
`data` field), `get_relevant_rows` returns the first `top_n` passages in
corpus order; the degraded result is observable because its rows carry no
`distance` column while every ranked-path row does; but when the embedding
call raises, the exception propagates out of `get_relevant_rows` instead
of falling back. -/
theorem get_relevant_rows_fallback (df : List Row) (top_n : ℕ)
    (h : ∀ r ∈ df, r.distance = none) :
    get_relevant_rows EmbedResponse.malformed df top_n = Except.ok (df.take top_n) ∧
    (∀ out, get_relevant_rows EmbedResponse.malformed df top_n = Except.ok out →
      ∀ r ∈ out, r.distance = none) ∧
    (∀ qe out, get_relevant_rows (EmbedResponse.ok qe) df top_n = Except.ok out →
      ∀ r ∈ out, r.distance ≠ none) ∧
    get_relevant_rows EmbedResponse.raise df top_n = Except.error () := by
  refine ⟨rfl, ?_, ?_, rfl⟩
  · intro out hout r hr
    have hout' : out = df.take top_n := by
      simpa [get_relevant_rows, get_relevant_rows_frame] using hout.symm
    subst hout'
    exact h r (List.take_subset _ _ hr)
  · intro qe out hout r hr
    have hout' : out = nsmallest top_n (assignDistances qe df) := by
      simpa [get_relevant_rows, get_relevant_rows_frame] using hout.symm
    subst hout'
    obtain ⟨r0, _, hr0eq⟩ := mem_nsmallest_assign qe df top_n r hr
    subst hr0eq
    simp

/-- Witness for `get_relevant_rows_fallback` at a concrete input. -/
theorem get_relevant_rows_fallback_witness :
    get_relevant_rows EmbedResponse.malformed
        ([⟨0, "a", [], none⟩] : List Row) 1
      = Except.ok (([⟨0, "a", [], none⟩] : List Row).take 1) ∧
    (∀ out, get_relevant_rows EmbedResponse.malformed
        ([⟨0, "a", [], none⟩] : List Row) 1 = Except.ok out →
      ∀ r ∈ out, r.distance = none) ∧
    (∀ qe out, get_relevant_rows (EmbedResponse.ok qe)
        ([⟨0, "a", [], none⟩] : List Row) 1 = Except.ok out →
      ∀ r ∈ out, r.distance ≠ none) ∧
    get_relevant_rows EmbedResponse.raise
        ([⟨0, "a", [], none⟩] : List Row) 1 = Except.error () :=
  get_relevant_rows_fallback [⟨0, "a", [], none⟩] 1
    (by intro r hr; simp only [List.mem_singleton] at hr; subst hr; rfl)

/-- Counterexample to C2 as stated: when the embedding provider raises,
`get_relevant_rows` does not return the first `top_n` passages — the
exception propagates (the `Embedding.create` call is not wrapped in
try/except). -/
theorem get_relevant_rows_raise_cex :
    get_relevant_rows EmbedResponse.raise ([⟨0, "a", [], none⟩] : List Row) 1
      ≠ Except.ok (([⟨0, "a", [], none⟩] : List Row).take 1) := by
  simp [get_relevant_rows, get_relevant_rows_frame]

/-- C10: `get_relevant_rows` never mutates the caller's frame: on every
path (raise, fallback, ranked) the input dataframe object is unchanged
after the call, because the `distance` column is assigned only on the
internal copy. -/
theorem get_relevant_rows_preserves_frame (resp : EmbedResponse)
    (df : List Row) (top_n : ℕ) :
    (get_relevant_rows_frame resp df top_n).2 = df := by
  cases resp <;> rfl

/-- A dot product of a vector with itself is non-negative. -/
theorem dotList_self_nonneg (a : List ℝ) : 0 ≤ dotList a a := by
  induction a with
  | nil => simp [dotList]
  | cons x a ih =>
    simp only [dotList]
    exact add_nonneg (mul_self_nonneg x) ih

/-- Negating the right argument negates the dot product. -/
theorem dotList_map_neg (a : List ℝ) :
    ∀ b : List ℝ, dotList a (b.map fun x => -x) = -dotList a b := by
  induction a with
  | nil => intro b; cases b <;> simp [dotList]
  | cons x a ih =>
    intro b
    cases b with
    | nil => simp [dotList]
    | cons y b =>
      simp only [List.map_cons, dotList, ih]
      ring

/-- Negating both arguments leaves the dot product unchanged. -/
theorem dotList_map_neg_both (a : List ℝ) :
    dotList (a.map fun x => -x) (a.map fun x => -x) = dotList a a := by
  induction a with
  | nil => simp [dotList]
  | cons x a ih =>
    simp only [List.map_cons, dotList, ih]
    ring

/-- The dot product of the zero vector with itself is zero. -/
theorem dotList_replicate_zero (n : ℕ) :
    dotList (List.replicate n (0 : ℝ)) (List.replicate n 0) = 0 := by
  induction n with
  | zero => simp [dotList]
  | succ n ih => simp [List.replicate_succ, dotList, ih]

/-- C6: the cosine distance used by the ranker is 0 between any nonzero
vector and itself, 2 between any nonzero vector and its negation, and 2
(the maximal value, not a division fault) whenever either argument is the
zero vector. -/
theorem cosineDistance_props (a b : List ℝ) (n : ℕ) (ha : dotList a a ≠ 0) :
    cosineDistance a a = 0 ∧
    cosineDistance a (a.map fun x => -x) = 2 ∧
    cosineDistance (List.replicate n 0) b = 2 ∧
    cosineDistance b (List.replicate n 0) = 2 := by
  have hpos : 0 < dotList a a := lt_of_le_of_ne (dotList_self_nonneg a) (Ne.symm ha)
  have hsq : Real.sqrt (dotList a a) ≠ 0 := ne_of_gt (Real.sqrt_pos.mpr hpos)
  refine ⟨?_, ?_, ?_, ?_⟩
  · rw [cosineDistance, if_neg (by push_neg; exact ⟨hsq, hsq⟩)]
    rw [Real.mul_self_sqrt hpos.le, div_self ha]
    ring
  · rw [cosineDistance, dotList_map_neg_both, if_neg (by push_neg; exact ⟨hsq, hsq⟩)]
    rw [dotList_map_neg, Real.mul_self_sqrt hpos.le, neg_div, div_self ha]
    ring
  · rw [cosineDistance, if_pos]
    left
    rw [dotList_replicate_zero, Real.sqrt_zero]
  · rw [cosineDistance, if_pos]
    right
    rw [dotList_replicate_zero, Real.sqrt_zero]

/-- Witness for `cosineDistance_props` at a concrete input. -/
theorem cosineDistance_props_witness :
    cosineDistance [1] [1] = 0 ∧
    cosineDistance [1] (([1] : List ℝ).map fun x => -x) = 2 ∧
    cosineDistance (List.replicate 2 0) [5] = 2 ∧
    cosineDistance [5] (List.replicate 2 0) = 2 :=
  cosineDistance_props [1] [5] 2 (by norm_num [dotList])

/-- C7 (amended): when the question-embedding call succeeds, every
completion-provider failure produces a sentinel answer — "An error
occurred." when the completion call raises, "No answer found in response."
when the response lacks a non-empty `choices` field — and the loop
proceeds to the remaining questions; an embedding-provider raise instead
propagates and terminates the loop. -/
theorem runLoop_completion_failures_nonfatal (tok : String → ℕ)
    (df : List Row) (q : String) (qe : List ℝ) (cr : CompletionResponse)
    (rest : List Turn) (h : ¬ lowerStr q = "exit") :
    (∀ p, get_openai_answer p CompletionResponse.raise = "An error occurred.") ∧
    (∀ p, get_openai_answer p CompletionResponse.noChoices
        = "No answer found in response.") ∧
    runLoop tok df (⟨q, EmbedResponse.ok qe, cr⟩ :: rest)
      = match runLoop tok df rest with
        | .error e => .error e
        | .ok answers =>
          .ok (get_openai_answer
            (create_prompt tok q (nsmallest 10 (assignDistances qe df)) 1500)
            cr :: answers) := by
  refine ⟨fun p => rfl, fun p => rfl, ?_⟩
  rw [runLoop, if_neg h]
  rfl

/-- Witness for `runLoop_completion_failures_nonfatal` at a concrete
input. -/
theorem runLoop_completion_failures_nonfatal_witness :
    (∀ p, get_openai_answer p CompletionResponse.raise = "An error occurred.") ∧
    (∀ p, get_openai_answer p CompletionResponse.noChoices
        = "No answer found in response.") ∧
    runLoop charTok [] (⟨"q1", EmbedResponse.ok [1], CompletionResponse.raise⟩ :: [])
      = match runLoop charTok ([] : List Row) ([] : List Turn) with
        | .error e => .error e
        | .ok answers =>
          .ok (get_openai_answer
            (create_prompt charTok "q1" (nsmallest 10 (assignDistances [1] [])) 1500)
            CompletionResponse.raise :: answers) :=
  runLoop_completion_failures_nonfatal charTok [] "q1" [1]
    CompletionResponse.raise [] (by decide)

/-- Counterexample to C7 as stated: an embedding-provider raise while
answering the first question terminates the whole interactive loop (no
sentinel answer, the second question is never processed), because neither
the loop body nor `answer_question_with_context` catches it. -/
theorem runLoop_embed_raise_cex :
    runLoop charTok ([⟨0, "a", [], none⟩] : List Row)
      [⟨"q1", EmbedResponse.raise, CompletionResponse.ok "x"⟩,
       ⟨"q2", EmbedResponse.malformed, CompletionResponse.ok "fine"⟩]
      = Except.error () := by
  rw [runLoop, if_neg (by decide)]
  rfl

/-- Rows reloaded from position `i` reproduce the saved texts and, when
the cell parser inverts the serializer, the saved embeddings. -/
theorem loadRows_save (serialize : List ℝ → String)
    (deserialize : String → List ℝ) (df : List Row)
    (h : ∀ r ∈ df, deserialize (serialize r.embedding) = r.embedding) :
    ∀ i : ℕ, (loadRows deserialize i (save_embeddings serialize df)).map
        (fun r => (r.text, r.embedding))
      = df.map fun r => (r.text, r.embedding) := by
  induction df with
  | nil => intro i; rfl
  | cons r df ih =>
    intro i
    simp only [save_embeddings, List.map_cons, loadRows]
    rw [h r (List.mem_cons_self r df)]
    have ih' := ih (fun r' hr' => h r' (List.mem_cons_of_mem r hr')) (i + 1)
    simp only [save_embeddings] at ih'
    rw [ih']

/-- C9: saving a passage collection with `save_embeddings` and reloading
it with `load_embeddings` reproduces every passage's text and an equal
embedding, given that the cell serialization round-trips exactly (the
spec's contract for the external `repr`/`eval`/CSV collaborators). -/
theorem save_load_roundtrip (serialize : List ℝ → String)
    (deserialize : String → List ℝ) (df : List Row)
    (h : ∀ r ∈ df, deserialize (serialize r.embedding) = r.embedding) :
    (load_embeddings deserialize (save_embeddings serialize df)).map
        (fun r => (r.text, r.embedding))
      = df.map fun r => (r.text, r.embedding) :=
  loadRows_save serialize deserialize df h 0

/-- Witness for `save_load_roundtrip` at a concrete input. -/
theorem save_load_roundtrip_witness :
    (load_embeddings (fun _ => [])
        (save_embeddings (fun _ => "[]") ([⟨0, "x", [], none⟩] : List Row))).map
        (fun r => (r.text, r.embedding))
      = ([⟨0, "x", [], none⟩] : List Row).map fun r => (r.text, r.embedding) :=
  save_load_roundtrip (fun _ => "[]") (fun _ => []) [⟨0, "x", [], none⟩]
    (by intro r hr; simp only [List.mem_singleton] at hr; subst hr; rfl)
